import Mathlib

/-!
Shallow embedding of `FlowVRFService` (src/unnamed/part_009) and proofs of the
frozen claims about it.

The TypeScript class talks to two sources of nondeterminism:
  * the Cadence Arch oracle (`provider.call` on `revertibleRandom()`), whose
    successive decoded uint64 answers we model as a stream `draws : Nat → Nat`
    reduced mod 2^64 at the decode boundary, indexed by the number of oracle
    calls made so far;
  * local, non-oracle randomness and time (`ethers.randomBytes(8)` request ids,
    `block.number`, `Date.now()` / `new Date()`), modelled as separate streams
    indexed by their own counters.
Each method is embedded as an explicit state-passing function returning
`Except VRFError α × VRFState`; a thrown `Error` becomes `.error e` together
with the state reached when the throw happens (so "how many oracle calls were
issued before the failure" is observable, as the claims require).
-/

namespace FlowVRF

/-! ### Hex encoding (`ethers.toBeHex`) and parsing (`BigInt("0x…")`) -/

/-- Lower-case hex digit character for `d < 16`, as produced by
`BigInt.toString(16)` inside `ethers.toBeHex`. -/
def hexDigit (d : Nat) : Char :=
  if d < 10 then Char.ofNat (48 + d) else Char.ofNat (87 + d)

/-- Numeric value of a hex digit character, as `BigInt("0x…")` reads it. -/
def hexVal (c : Char) : Nat :=
  if 48 ≤ c.toNat ∧ c.toNat ≤ 57 then c.toNat - 48
  else if 97 ≤ c.toNat ∧ c.toNat ≤ 102 then c.toNat - 87
  else 0

/-- Little-endian hex digits of `n` (least significant first); the first
argument is recursion fuel, always called with `fuel ≥ n`. -/
def hexCharsAux : Nat → Nat → List Char
  | 0, _ => []
  | fuel + 1, n => if n = 0 then [] else hexDigit (n % 16) :: hexCharsAux fuel (n / 16)

/-- Little-endian hex digits of `n`; empty for `n = 0`. -/
def hexChars (n : Nat) : List Char := hexCharsAux n n

/-- Left-pad a digit list with one `'0'` to an even length, as `toBeHex` pads
its hex digits to whole bytes. -/
def padEven (cs : List Char) : List Char :=
  if cs.length % 2 = 1 then '0' :: cs else cs

/-- Embedding of `ethers.toBeHex(v)`: minimal big-endian hex representation of
`v`, left-padded with one `'0'` to an even number of digits, with a `"0x"`
prefix (`toBeHex 0 = "0x00"`, `toBeHex 7 = "0x07"`, `toBeHex 27 = "0x1b"`). -/
def toBeHex (v : Nat) : String :=
  "0x" ++ String.mk (padEven (if v = 0 then ['0'] else (hexChars v).reverse))

/-- Value of a big-endian hex digit list. -/
def parseHexDigits (cs : List Char) : Nat :=
  cs.foldl (fun a c => a * 16 + hexVal c) 0

/-- Embedding of `BigInt(s)` on the `"0x…"` strings produced by `toBeHex`:
strip the two-character prefix and read the digits big-endian. -/
def parseHex (s : String) : Nat :=
  parseHexDigits (s.toList.drop 2)

/-! ### Data model -/

/-- Result record of `requestRandomness` (interface `FlowVRFResult`); the
`randomness` field is the hex string `ethers.toBeHex(randomValue)`. -/
structure FlowVRFResult where
  randomness : String
  requestId : String
  blockHeight : Nat
  timestamp : Nat
  deriving DecidableEq, Repr

/-- Interface `JudgeAssignment`; `assignedAt` is the `new Date()` reading. -/
structure JudgeAssignment where
  projectId : String
  judgeEmail : String
  assignedAt : Nat
  vrfRequestId : String
  randomnessUsed : String
  deriving DecidableEq, Repr

/-- Errors thrown by the service, one per distinct `throw new Error(…)` site:
`insufficientCandidates` = "Cannot select more judges than available",
`invalidCount` = "Must select at least one judge" / "Count must be positive",
`tooManyRequested` = "Maximum 50 random values per request",
`invalidRange` = "Max must be >= min",
`duplicateSelectionFailure` = "Failed to select unique judges". -/
inductive VRFError where
  | insufficientCandidates
  | invalidCount
  | tooManyRequested
  | invalidRange
  | duplicateSelectionFailure
  deriving DecidableEq, Repr

/-- Environment: the oracle's answer stream and the local non-oracle streams
(request ids from `ethers.randomBytes`, block numbers, clock readings). -/
structure VRFEnv where
  draws : Nat → Nat
  reqIds : Nat → String
  blockHeights : Nat → Nat
  times : Nat → Nat

/-- Counters of how many times each nondeterministic source has been
consumed. `oracleCalls` counts `provider.call` requests to Cadence Arch. -/
structure VRFState where
  oracleCalls : Nat
  ridCalls : Nat
  clockCalls : Nat
  deriving DecidableEq, Repr

/-- Initial state: no source consumed yet. -/
def VRFState.init : VRFState := ⟨0, 0, 0⟩

/-! ### Operations -/

/-- One `provider.call` to Cadence Arch followed by the `uint64` ABI decode:
returns the next stream value reduced to a uint64 and bumps the call count. -/
def oracleCall (env : VRFEnv) (s : VRFState) : Nat × VRFState :=
  (env.draws s.oracleCalls % 2 ^ 64,
   { s with oracleCalls := s.oracleCalls + 1 })

/-- Embedding of `requestRandomness()`: one oracle call, then a result record
whose `randomness` is `toBeHex` of the drawn value, whose `requestId` is the
next locally generated id (`ethers.randomBytes(8)` hexlified), and whose
`blockHeight` / `timestamp` come from the local streams. The `catch` branch
(network failure) is outside the model: the modelled oracle always answers. -/
def requestRandomness (env : VRFEnv) (s : VRFState) : FlowVRFResult × VRFState :=
  let p := oracleCall env s
  ({ randomness := toBeHex p.1
     requestId := env.reqIds s.ridCalls
     blockHeight := env.blockHeights s.ridCalls
     timestamp := env.times s.clockCalls },
   { p.2 with ridCalls := s.ridCalls + 1, clockCalls := s.clockCalls + 1 })

/-- The `for` loop body of `getMultipleRandomValues`: `n` successive oracle
calls, collecting the decoded values in call order. -/
def drawMany (env : VRFEnv) : Nat → VRFState → List Nat × VRFState
  | 0, s => ([], s)
  | n + 1, s =>
    let p := oracleCall env s
    let q := drawMany env n p.2
    (p.1 :: q.1, q.2)

/-- Embedding of `getMultipleRandomValues(count)`: validates `count`, then
issues exactly `count` oracle calls, one per returned value. -/
def getMultipleRandomValues (env : VRFEnv) (count : Int) (s : VRFState) :
    Except VRFError (List Nat) × VRFState :=
  if count ≤ 0 then (.error .invalidCount, s)
  else if 50 < count then (.error .tooManyRequested, s)
  else
    let q := drawMany env count.toNat s
    (.ok q.1, q.2)

/-- The `do … while` collision-resolution loop of `selectJudges` for one pick:
at offset `attempts` compute `judgeIndex = (value + attempts) % n`, then
continue while that index is used and the incremented `attempts` is still
below the `2 * n` cap. The fuel argument counts the remaining permitted
iterations (`2 * n - attempts`), making the recursion structural. -/
def pickGo (n : Nat) (usedIndices : List Nat) (value : Nat) : Nat → Nat → Nat
  | _, 0 => value % n
  | attempts, fuel + 1 =>
    if (value + attempts) % n ∈ usedIndices ∧ attempts + 1 < 2 * n then
      pickGo n usedIndices value (attempts + 1) fuel
    else (value + attempts) % n

/-- One pick of `selectJudges`: run the collision loop from `attempts = 0`. -/
def pickLoop (n : Nat) (usedIndices : List Nat) (value : Nat) : Nat :=
  pickGo n usedIndices value 0 (2 * n)

/-- The selection `for` loop of `selectJudges`, one iteration per entry of
`allRandomValues`: resolve an index for the current value, throw
`duplicateSelectionFailure` if it is still used after the capped loop, else
record the assignment (with `randomnessUsed = toBeHex` of the original value
and the shared `requestId`) and continue with the index marked used. -/
def selectLoop (availableJudges : List String) (projectId : String)
    (requestId : String) (env : VRFEnv) :
    List Nat → List Nat → VRFState →
    Except VRFError (List JudgeAssignment) × VRFState
  | [], _, s => (.ok [], s)
  | value :: values, usedIndices, s =>
    let judgeIndex := pickLoop availableJudges.length usedIndices value
    if judgeIndex ∈ usedIndices then (.error .duplicateSelectionFailure, s)
    else
      let assignment : JudgeAssignment :=
        { projectId := projectId
          judgeEmail := availableJudges.getD judgeIndex ""
          assignedAt := env.times s.clockCalls
          vrfRequestId := requestId
          randomnessUsed := toBeHex value }
      match selectLoop availableJudges projectId requestId env values
          (usedIndices ++ [judgeIndex])
          { s with clockCalls := s.clockCalls + 1 } with
      | (.error e, s') => (.error e, s')
      | (.ok rest, s') => (.ok (assignment :: rest), s')

/-- Embedding of `selectJudges(availableJudges, numJudges, projectId)`:
validate the count, call `requestRandomness` once, fetch `numJudges - 1`
further values when `numJudges > 1`, prepend `BigInt(vrfResult.randomness)`
to form `allRandomValues`, and run the selection loop. -/
def selectJudges (env : VRFEnv) (availableJudges : List String)
    (numJudges : Int) (projectId : String) (s : VRFState) :
    Except VRFError (List JudgeAssignment) × VRFState :=
  if (availableJudges.length : Int) < numJudges then
    (.error .insufficientCandidates, s)
  else if numJudges ≤ 0 then (.error .invalidCount, s)
  else
    let r := requestRandomness env s
    let more :=
      if 1 < numJudges then getMultipleRandomValues env (numJudges - 1) r.2
      else (.ok [], r.2)
    match more with
    | (.error e, s2) => (.error e, s2)
    | (.ok randomValues, s2) =>
      let allRandomValues := parseHex r.1.randomness :: randomValues
      selectLoop availableJudges projectId r.1.requestId env
        allRandomValues [] s2

/-- Embedding of `getRandomInRange(min, max)`: validate the range, draw one
value, and return `value % (max - min + 1) + min` (the JavaScript bigint `%`
agrees with `Int.emod` here because the dividend is nonnegative). -/
def getRandomInRange (env : VRFEnv) (min max : Int) (s : VRFState) :
    Except VRFError Int × VRFState :=
  if max < min then (.error .invalidRange, s)
  else
    let p := oracleCall env s
    ((.ok ((p.1 : Int) % (max - min + 1) + min)), p.2)

/-! ### Characterizations used to state the claims -/

/-- The decoded uint64 values of oracle calls `start, start+1, …, start+k-1`;
for a successful `selectJudges` call starting at state `s` this is exactly
`allRandomValues` (the `requestRandomness` draw followed by the
`getMultipleRandomValues` draws). -/
def drawnValues (env : VRFEnv) (start k : Nat) : List Nat :=
  (List.range k).map fun i => env.draws (start + i) % 2 ^ 64

/-- The candidate indices the selection loop resolves, in pick order: each
pick runs the collision loop against the indices used so far. -/
def pickedIndices (n : Nat) : List Nat → List Nat → List Nat
  | [], _ => []
  | value :: values, usedIndices =>
    pickLoop n usedIndices value ::
      pickedIndices n values (usedIndices ++ [pickLoop n usedIndices value])

/-- The assignment records a successful selection loop produces, written as a
direct recursion (no failure branch); `c` is the clock counter at entry. -/
def assignList (availableJudges : List String) (projectId requestId : String)
    (env : VRFEnv) : List Nat → List Nat → Nat → List JudgeAssignment
  | [], _, _ => []
  | value :: values, usedIndices, c =>
    { projectId := projectId
      judgeEmail := availableJudges.getD (pickLoop availableJudges.length usedIndices value) ""
      assignedAt := env.times c
      vrfRequestId := requestId
      randomnessUsed := toBeHex value } ::
      assignList availableJudges projectId requestId env values
        (usedIndices ++ [pickLoop availableJudges.length usedIndices value]) (c + 1)

/-- Observation used for the determinism claim: forget the state and reduce a
`selectJudges` outcome to its error, or to its judge identifiers in order. -/
def emailsResult (r : Except VRFError (List JudgeAssignment) × VRFState) :
    Except VRFError (List String) :=
  r.1.map (List.map JudgeAssignment.judgeEmail)

/-! ### Concrete fixtures for witnesses and counterexamples -/

/-- Oracle stream of the spec's worked example: draws 7 then 12. -/
def drawsA : Nat → Nat := fun i => [7, 12].getD i 0

/-- Oracle stream forcing a collision: every draw is 4. -/
def drawsB : Nat → Nat := fun _ => 4

/-- Environment for the spec's worked example; the request-id stream is
injective, so any repetition of ids in the output comes from the code. -/
def envA : VRFEnv :=
  { draws := drawsA
    reqIds := fun i => "rid" ++ toString i
    blockHeights := fun _ => 100
    times := fun i => 1000 + i }

/-- Same draws as `envA` but different local randomness and clock: used to
exercise determinism with respect to the oracle stream alone. -/
def envA' : VRFEnv :=
  { draws := drawsA
    reqIds := fun i => "other" ++ toString i
    blockHeights := fun _ => 555
    times := fun i => 9000 + i }

/-- Collision environment: both draws are 4. -/
def envB : VRFEnv :=
  { draws := drawsB
    reqIds := fun i => "rid" ++ toString i
    blockHeights := fun _ => 100
    times := fun i => 1000 + i }

/-- Candidate pool of the spec's worked example. -/
def judges3 : List String := ["a@x", "b@x", "c@x"]

/-- Two-candidate pool of the spec's collision example. -/
def judges2 : List String := ["a@x", "b@x"]

/-- A pool of 60 distinct candidate identifiers, large enough that a request
for 52 judges passes input validation. -/
def judges60 : List String := (List.range 60).map fun i => "j" ++ toString i

/-- The assignments `selectJudges envA judges3 2 "p"` returns from the fresh
state: draw 7 picks index `7 mod 3 = 1` (`"b@x"`), draw 12 picks
`12 mod 3 = 0` (`"a@x"`); both records carry the single request id. -/
def resA : List JudgeAssignment :=
  [{ projectId := "p", judgeEmail := "b@x", assignedAt := 1001,
     vrfRequestId := "rid0", randomnessUsed := "0x07" },
   { projectId := "p", judgeEmail := "a@x", assignedAt := 1002,
     vrfRequestId := "rid0", randomnessUsed := "0x0c" }]

/-- The assignments `selectJudges envB judges2 2 "q"` returns from the fresh
state: both draws are 4, so the second pick collides at index 0 and resolves
to index 1 with offset 1, while both records keep `toBeHex 4`. -/
def resB : List JudgeAssignment :=
  [{ projectId := "q", judgeEmail := "a@x", assignedAt := 1001,
     vrfRequestId := "rid0", randomnessUsed := "0x04" },
   { projectId := "q", judgeEmail := "b@x", assignedAt := 1002,
     vrfRequestId := "rid0", randomnessUsed := "0x04" }]

/-! ### The hex round trip: `BigInt(toBeHex v) = v` -/

theorem hexVal_hexDigit : ∀ d < 16, hexVal (hexDigit d) = d := by decide

theorem foldl_hexCharsAux (fuel : Nat) :
    ∀ n acc, n ≤ fuel →
      List.foldl (fun a c => a * 16 + hexVal c) acc (hexCharsAux fuel n).reverse
        = acc * 16 ^ (hexCharsAux fuel n).length + n := by
  induction fuel with
  | zero =>
    intro n acc hn
    have h0 : n = 0 := Nat.le_zero.mp hn
    subst h0
    simp [hexCharsAux]
  | succ fuel ih =>
    intro n acc hn
    by_cases h0 : n = 0
    · subst h0
      simp [hexCharsAux]
    · have hdiv : n / 16 ≤ fuel := by
        have h1 : n / 16 < n := Nat.div_lt_self (Nat.pos_of_ne_zero h0) (by omega)
        omega
      simp only [hexCharsAux, if_neg h0, List.reverse_cons, List.foldl_append,
        List.foldl_cons, List.foldl_nil, List.length_cons]
      rw [ih (n / 16) acc hdiv, hexVal_hexDigit (n % 16) (Nat.mod_lt _ (by omega))]
      have key : (acc * 16 ^ (hexCharsAux fuel (n / 16)).length + n / 16) * 16 + n % 16
          = acc * 16 ^ ((hexCharsAux fuel (n / 16)).length + 1)
            + (16 * (n / 16) + n % 16) := by ring
      rw [key, Nat.div_add_mod]

theorem parseHexDigits_reverse_hexChars (v : Nat) :
    parseHexDigits (hexChars v).reverse = v := by
  have h := foldl_hexCharsAux v v 0 le_rfl
  simpa [parseHexDigits, hexChars] using h

theorem parseHexDigits_cons_zero (cs : List Char) :
    parseHexDigits ('0' :: cs) = parseHexDigits cs := rfl

theorem parseHex_append_mk (cs : List Char) :
    parseHex ("0x" ++ String.mk cs) = parseHexDigits cs := rfl

theorem parseHexDigits_padEven (cs : List Char) :
    parseHexDigits (padEven cs) = parseHexDigits cs := by
  unfold padEven
  split
  · exact parseHexDigits_cons_zero cs
  · rfl

/-- The round trip at line 116 of the source: `BigInt(vrfResult.randomness)`
recovers the drawn value that `requestRandomness` hex-encoded. -/
theorem parseHex_toBeHex (v : Nat) : parseHex (toBeHex v) = v := by
  unfold toBeHex
  rw [parseHex_append_mk, parseHexDigits_padEven]
  by_cases h0 : v = 0
  · subst h0
    rfl
  · rw [if_neg h0]
    exact parseHexDigits_reverse_hexChars v

/-! ### Oracle-call bookkeeping -/

/-- Closed form of the draw loop: `n` calls return the next `n` stream values
in order and advance the oracle counter by exactly `n`. -/
theorem drawMany_eq (env : VRFEnv) :
    ∀ (n : Nat) (s : VRFState),
      drawMany env n s =
        ((List.range n).map (fun i => env.draws (s.oracleCalls + i) % 2 ^ 64),
         { s with oracleCalls := s.oracleCalls + n }) := by
  intro n
  induction n with
  | zero =>
    intro s
    simp [drawMany]
  | succ n ih =>
    intro s
    have hmap : (List.range (n + 1)).map (fun i => env.draws (s.oracleCalls + i) % 2 ^ 64)
        = env.draws s.oracleCalls % 2 ^ 64 ::
          (List.range n).map (fun i => env.draws (s.oracleCalls + 1 + i) % 2 ^ 64) := by
      rw [List.range_succ_eq_map, List.map_cons, List.map_map]
      refine List.cons_eq_cons.mpr ⟨by rw [Nat.add_zero], ?_⟩
      refine List.map_congr_left fun i _ => ?_
      have : s.oracleCalls + Nat.succ i = s.oracleCalls + 1 + i := by omega
      rw [Function.comp_apply, this]
    rw [hmap]
    simp only [drawMany, oracleCall, ih]
    refine Prod.ext rfl ?_
    simp only
    congr 1
    omega

/-! ### The collision-resolution loop -/

/-- Every exit of the collision loop returns a value of the form
`(value + a) % n`. -/
theorem pickGo_exists_offset (n : Nat) (used : List Nat) (v : Nat) :
    ∀ fuel attempts, ∃ a, pickGo n used v attempts fuel = (v + a) % n := by
  intro fuel
  induction fuel with
  | zero =>
    intro attempts
    exact ⟨0, rfl⟩
  | succ fuel ih =>
    intro attempts
    unfold pickGo
    split
    · exact ih (attempts + 1)
    · exact ⟨attempts, rfl⟩

/-- The resolved index is always a valid position in the candidate list. -/
theorem pickLoop_lt {n : Nat} (hn : 0 < n) (used : List Nat) (v : Nat) :
    pickLoop n used v < n := by
  obtain ⟨a, ha⟩ := pickGo_exists_offset n used v (2 * n) 0
  rw [pickLoop, ha]
  exact Nat.mod_lt _ hn

/-- When some additive offset below `n` escapes `used`, the loop returns the
value at the least escaping offset, provided the cap has not yet been hit. -/
theorem pickGo_eq_find (n : Nat) (used : List Nat) (v : Nat)
    (ex : ∃ a, (v + a) % n ∉ used) (hfind : Nat.find ex < n) :
    ∀ fuel attempts, attempts ≤ Nat.find ex → attempts + fuel = 2 * n →
      pickGo n used v attempts fuel = (v + Nat.find ex) % n := by
  intro fuel
  induction fuel with
  | zero =>
    intro attempts hle hcap
    omega
  | succ fuel ih =>
    intro attempts hle hcap
    rcases Nat.lt_or_ge attempts (Nat.find ex) with hlt | hge
    · have hmem : (v + attempts) % n ∈ used := by
        have h := Nat.find_min ex hlt
        simpa using h
      unfold pickGo
      rw [if_pos ⟨hmem, by omega⟩]
      exact ih (attempts + 1) (by omega) (by omega)
    · have heq : attempts = Nat.find ex := le_antisymm hle hge
      have hnot : (v + Nat.find ex) % n ∉ used := Nat.find_spec ex
      unfold pickGo
      rw [heq, if_neg fun hc => hnot hc.1]

/-- Fewer used indices than candidates leaves some offset whose reduced index
is unused: the `n` values `(v + a) % n` for `a < n` are pairwise distinct. -/
theorem exists_unused_offset {n : Nat} (hn : 0 < n) (used : List Nat) (v : Nat)
    (hlen : used.length < n) : ∃ a, (v + a) % n ∉ used := by
  by_contra hall
  push_neg at hall
  have hinj : Function.Injective fun a : Fin n => (v + a.1) % n := by
    intro a b hab
    simp only at hab
    have hmod : a.1 % n = b.1 % n := Nat.ModEq.add_left_cancel' v hab
    exact Fin.ext (by rwa [Nat.mod_eq_of_lt a.2, Nat.mod_eq_of_lt b.2] at hmod)
  have hsub : (Finset.univ.image fun a : Fin n => (v + a.1) % n) ⊆ used.toFinset := by
    intro x hx
    obtain ⟨a, _, rfl⟩ := Finset.mem_image.mp hx
    exact List.mem_toFinset.mpr (hall a.1)
  have hcard := Finset.card_le_card hsub
  rw [Finset.card_image_of_injective _ hinj, Finset.card_univ, Fintype.card_fin] at hcard
  have hle := List.toFinset_card_le used
  omega

/-- Main property of one pick: with fewer used indices than candidates, the
resolved index is fresh. -/
theorem pickLoop_not_mem {n : Nat} (used : List Nat) (v : Nat)
    (hlen : used.length < n) : pickLoop n used v ∉ used := by
  have hn : 0 < n := lt_of_le_of_lt (Nat.zero_le _) hlen
  have ex := exists_unused_offset hn used v hlen
  obtain ⟨a, ha⟩ := exists_unused_offset hn used v hlen
  have hx : (v + a % n) % n ∉ used := by rwa [Nat.add_mod_mod]
  have hfl : Nat.find ex < n :=
    lt_of_le_of_lt (Nat.find_le hx) (Nat.mod_lt _ hn)
  have hgo := pickGo_eq_find n used v ex hfl (2 * n) 0 (Nat.zero_le _) (by omega)
  rw [pickLoop, hgo]
  exact Nat.find_spec ex

/-! ### The selection loop -/

/-- Invariant of the selection loop at the level of indices: with at most as
many picks left as unused candidates, the resolved indices are valid
positions, avoid the already-used ones, and are pairwise distinct. -/
theorem pickedIndices_spec {n : Nat} :
    ∀ (values usedIndices : List Nat),
      usedIndices.length + values.length ≤ n →
      (pickedIndices n values usedIndices).length = values.length ∧
      (∀ j ∈ pickedIndices n values usedIndices, j < n ∧ j ∉ usedIndices) ∧
      (pickedIndices n values usedIndices).Nodup := by
  intro values
  induction values with
  | nil =>
    intro used hlen
    simp [pickedIndices]
  | cons v vs ih =>
    intro used hlen
    have hlt : used.length < n := by
      simp only [List.length_cons] at hlen
      omega
    have hn : 0 < n := lt_of_le_of_lt (Nat.zero_le _) hlt
    have hfresh : pickLoop n used v ∉ used := pickLoop_not_mem used v hlt
    have hltn : pickLoop n used v < n := pickLoop_lt hn used v
    obtain ⟨ihlen, ihmem, ihnd⟩ :=
      ih (used ++ [pickLoop n used v])
        (by simp at hlen ⊢; omega)
    refine ⟨by simp [pickedIndices, ihlen], ?_, ?_⟩
    · intro j hj
      rcases List.mem_cons.mp hj with hj | hj
      · exact hj ▸ ⟨hltn, hfresh⟩
      · obtain ⟨h1, h2⟩ := ihmem j hj
        exact ⟨h1, fun hc => h2 (List.mem_append_left _ hc)⟩
    · refine List.nodup_cons.mpr ⟨fun hc => ?_, ihnd⟩
      obtain ⟨_, h2⟩ := ihmem _ hc
      exact h2 (List.mem_append_right _ (List.mem_singleton_self _))

/-- With at most as many picks left as unused candidates, the selection loop
cannot hit the duplicate-failure branch: it returns the assignment records of
`assignList` and ticks the clock once per pick. -/
theorem selectLoop_ok (js : List String) (pid rid : String) (env : VRFEnv) :
    ∀ (values usedIndices : List Nat) (s : VRFState),
      usedIndices.length + values.length ≤ js.length →
      selectLoop js pid rid env values usedIndices s =
        (.ok (assignList js pid rid env values usedIndices s.clockCalls),
         { s with clockCalls := s.clockCalls + values.length }) := by
  intro values
  induction values with
  | nil =>
    intro used s hlen
    simp [selectLoop, assignList]
  | cons v vs ih =>
    intro used s hlen
    have hlt : used.length < js.length := by
      simp only [List.length_cons] at hlen
      omega
    have hfresh : pickLoop js.length used v ∉ used := pickLoop_not_mem used v hlt
    simp only [selectLoop, if_neg hfresh]
    rw [ih (used ++ [pickLoop js.length used v]) _
      (by simp at hlen ⊢; omega)]
    simp only [assignList]
    refine Prod.ext rfl ?_
    simp only [List.length_cons]
    congr 1
    omega

/-- Projections of the assignment records produced by a successful loop: the
judge identifiers are the picked candidates, `randomnessUsed` is the hex form
of the original drawn value of the pick, and every record carries the one
shared request id. -/
theorem assignList_fields (js : List String) (pid rid : String) (env : VRFEnv) :
    ∀ (values usedIndices : List Nat) (c : Nat),
      (assignList js pid rid env values usedIndices c).map (·.judgeEmail)
          = (pickedIndices js.length values usedIndices).map (fun j => js.getD j "") ∧
      (assignList js pid rid env values usedIndices c).map (·.randomnessUsed)
          = values.map toBeHex ∧
      (assignList js pid rid env values usedIndices c).map (·.vrfRequestId)
          = List.replicate values.length rid ∧
      (assignList js pid rid env values usedIndices c).map (·.projectId)
          = List.replicate values.length pid ∧
      (assignList js pid rid env values usedIndices c).length = values.length := by
  intro values
  induction values with
  | nil =>
    intro used c
    simp [assignList, pickedIndices]
  | cons v vs ih =>
    intro used c
    obtain ⟨ih1, ih2, ih3, ih4, ih5⟩ := ih (used ++ [pickLoop js.length used v]) (c + 1)
    simp [assignList, pickedIndices, List.replicate_succ, ih1, ih2, ih3, ih4, ih5]

/-! ### Closed forms of `selectJudges` -/

theorem drawnValues_length (env : VRFEnv) (start k : Nat) :
    (drawnValues env start k).length = k := by
  simp [drawnValues]

theorem drawnValues_succ (env : VRFEnv) (start k : Nat) :
    drawnValues env start (k + 1)
      = env.draws start % 2 ^ 64 :: drawnValues env (start + 1) k := by
  unfold drawnValues
  rw [List.range_succ_eq_map, List.map_cons, List.map_map]
  refine List.cons_eq_cons.mpr ⟨by rw [Nat.add_zero], ?_⟩
  refine List.map_congr_left fun i _ => ?_
  have h : start + Nat.succ i = start + 1 + i := by omega
  rw [Function.comp_apply, h]

/-- Validation failure on `numJudges > availableJudges.length`: the call
throws before any source is consumed. -/
theorem selectJudges_insufficient (env : VRFEnv) (js : List String) (k : Int)
    (pid : String) (s : VRFState) (h : (js.length : Int) < k) :
    selectJudges env js k pid s = (.error .insufficientCandidates, s) := by
  simp [selectJudges, if_pos h]

/-- Validation failure on `numJudges ≤ 0`: the call throws before any source
is consumed (the first check cannot fire, since a list length is not below a
nonpositive count). -/
theorem selectJudges_invalidCount (env : VRFEnv) (js : List String) (k : Int)
    (pid : String) (s : VRFState) (h : k ≤ 0) :
    selectJudges env js k pid s = (.error .invalidCount, s) := by
  have hnot : ¬ ((js.length : Int) < k) := by omega
  simp [selectJudges, if_neg hnot, if_pos h]

/-- For `k ≥ 52` (and enough candidates) the delegated
`getMultipleRandomValues(k - 1)` throws `tooManyRequested` after the single
`requestRandomness` oracle call has already happened. -/
theorem selectJudges_tooMany (env : VRFEnv) (js : List String) (k : Int)
    (pid : String) (s : VRFState) (h1 : 51 < k) (h2 : k ≤ (js.length : Int)) :
    selectJudges env js k pid s =
      (.error .tooManyRequested,
       { oracleCalls := s.oracleCalls + 1
         ridCalls := s.ridCalls + 1
         clockCalls := s.clockCalls + 1 }) := by
  have hnotlt : ¬ ((js.length : Int) < k) := not_lt.mpr h2
  have hnotle : ¬ (k ≤ 0) := by omega
  have hk1 : 1 < k := by omega
  have hm1 : ¬ (k - 1 ≤ 0) := by omega
  have hm2 : 50 < k - 1 := by omega
  simp [selectJudges, if_neg hnotlt, if_neg hnotle, if_pos hk1,
    requestRandomness, oracleCall, getMultipleRandomValues, if_neg hm1, if_pos hm2,
    show ¬ k ≤ 1 from by omega, show 50 < k - 1 from hm2]

/-- Closed form of a successful call: with `1 ≤ k ≤ n` and `k ≤ 51` no branch
fails; the call consumes exactly `k` oracle draws and one request id, and
returns `assignList` over the `k` drawn values starting from the empty used
set. -/
theorem selectJudges_ok_form (env : VRFEnv) (js : List String) (k : Int)
    (pid : String) (s : VRFState) (h1 : 1 ≤ k) (h2 : k ≤ (js.length : Int))
    (h3 : k ≤ 51) :
    selectJudges env js k pid s =
      (.ok (assignList js pid (env.reqIds s.ridCalls) env
              (drawnValues env s.oracleCalls k.toNat) [] (s.clockCalls + 1)),
       { oracleCalls := s.oracleCalls + k.toNat
         ridCalls := s.ridCalls + 1
         clockCalls := s.clockCalls + 1 + k.toNat }) := by
  have hnotlt : ¬ ((js.length : Int) < k) := not_lt.mpr h2
  have hnotle : ¬ (k ≤ 0) := by omega
  have hlen : k.toNat ≤ js.length := by omega
  by_cases hk1 : 1 < k
  · have hm1 : ¬ (k - 1 ≤ 0) := by omega
    have hm2 : ¬ (50 < k - 1) := by omega
    have hkt : k.toNat = (k - 1).toNat + 1 := by omega
    have hvals : env.draws s.oracleCalls % 2 ^ 64 ::
        (List.range (k - 1).toNat).map
          (fun i => env.draws (s.oracleCalls + 1 + i) % 2 ^ 64)
        = drawnValues env s.oracleCalls k.toNat := by
      rw [hkt, drawnValues_succ]
      rfl
    simp only [selectJudges, if_neg hnotlt, if_neg hnotle, if_pos hk1,
      requestRandomness, oracleCall, getMultipleRandomValues, if_neg hm1,
      if_neg hm2, drawMany_eq, parseHex_toBeHex, hvals]
    rw [selectLoop_ok js pid _ env _ []
      { oracleCalls := s.oracleCalls + 1 + (k - 1).toNat
        ridCalls := s.ridCalls + 1
        clockCalls := s.clockCalls + 1 }
      (by simp [drawnValues_length]; omega)]
    refine Prod.ext rfl ?_
    simp only [drawnValues_length]
    congr 1 <;> omega
  · have hk : k = 1 := by omega
    subst hk
    have hvals : [env.draws s.oracleCalls % 2 ^ 64]
        = drawnValues env s.oracleCalls (1 : Int).toNat := by
      simp [drawnValues, show List.range 1 = [0] from rfl]
    simp only [selectJudges, if_neg hnotlt, if_neg hnotle, if_neg hk1,
      requestRandomness, oracleCall, parseHex_toBeHex, hvals]
    rw [selectLoop_ok js pid _ env _ []
      { oracleCalls := s.oracleCalls + 1
        ridCalls := s.ridCalls + 1
        clockCalls := s.clockCalls + 1 }
      (by simp [drawnValues_length]; omega)]
    refine Prod.ext rfl ?_
    simp only [drawnValues_length]
    congr 1

/-! ### Determinism and oracle-call neutrality of the selection loop -/

/-- The selection loop never touches the oracle: collision retries reuse the
already-drawn values. -/
theorem selectLoop_oracleCalls (js : List String) (pid rid : String)
    (env : VRFEnv) :
    ∀ (values usedIndices : List Nat) (s : VRFState),
      ((selectLoop js pid rid env values usedIndices s).2).oracleCalls
        = s.oracleCalls := by
  intro values
  induction values with
  | nil =>
    intro used s
    rfl
  | cons v vs ih =>
    intro used s
    by_cases hmem : pickLoop js.length used v ∈ used
    · simp [selectLoop, if_pos hmem]
    · simp only [selectLoop, if_neg hmem]
      have h := ih (used ++ [pickLoop js.length used v])
        { s with clockCalls := s.clockCalls + 1 }
      cases hr : selectLoop js pid rid env vs (used ++ [pickLoop js.length used v])
          { s with clockCalls := s.clockCalls + 1 } with
      | mk e t =>
        rw [hr] at h
        cases e <;> simpa using h

/-- The judge identifiers and the error outcome of the selection loop depend
only on the candidate list and the drawn values, not on the request id, the
clock, or any other environment stream. -/
theorem selectLoop_emails_congr (js : List String) (pid : String)
    (rid₁ rid₂ : String) (env₁ env₂ : VRFEnv) :
    ∀ (values usedIndices : List Nat) (s₁ s₂ : VRFState),
      emailsResult (selectLoop js pid rid₁ env₁ values usedIndices s₁)
        = emailsResult (selectLoop js pid rid₂ env₂ values usedIndices s₂) := by
  intro values
  induction values with
  | nil =>
    intro used s₁ s₂
    rfl
  | cons v vs ih =>
    intro used s₁ s₂
    by_cases hmem : pickLoop js.length used v ∈ used
    · simp [selectLoop, if_pos hmem, emailsResult]
    · simp only [selectLoop, if_neg hmem]
      have h := ih (used ++ [pickLoop js.length used v])
        { s₁ with clockCalls := s₁.clockCalls + 1 }
        { s₂ with clockCalls := s₂.clockCalls + 1 }
      cases hr₁ : selectLoop js pid rid₁ env₁ vs (used ++ [pickLoop js.length used v])
          { s₁ with clockCalls := s₁.clockCalls + 1 } with
      | mk e₁ t₁ =>
        cases hr₂ : selectLoop js pid rid₂ env₂ vs (used ++ [pickLoop js.length used v])
            { s₂ with clockCalls := s₂.clockCalls + 1 } with
        | mk e₂ t₂ =>
          rw [hr₁, hr₂] at h
          cases e₁ with
          | error a =>
            cases e₂ with
            | error b =>
              simp only [emailsResult, Except.map] at h ⊢
              simpa using h
            | ok l₂ =>
              simp [emailsResult, Except.map] at h
          | ok l₁ =>
            cases e₂ with
            | error b =>
              simp [emailsResult, Except.map] at h
            | ok l₂ =>
              simp only [emailsResult, Except.map] at h ⊢
              simpa using h

/-- Mapping distinct valid positions through a duplicate-free candidate list
yields distinct identifiers. -/
theorem nodup_map_getD {js : List String} (hjs : js.Nodup) {is : List Nat}
    (hnd : is.Nodup) (hlt : ∀ j ∈ is, j < js.length) :
    (is.map fun j => js.getD j "").Nodup := by
  refine hnd.map_on ?_
  intro a ha b hb hab
  rw [List.getD_eq_getElem js "" (hlt a ha), List.getD_eq_getElem js "" (hlt b hb)] at hab
  exact (hjs.getElem_inj_iff).mp hab

/-! ### Claims -/

/-- Claim C1: For `1 ≤ k ≤ n`, a successful `selectJudges` call returns exactly `k`
assignment records; the selected candidate positions (`pickedIndices`) are
pairwise distinct and valid, the returned judge identifiers are exactly the
candidates at those positions, and when the candidate pool is duplicate-free
the identifier list has no duplicates and its set has size `min k n`. -/
theorem selectJudges_k_distinct (env : VRFEnv) (js : List String) (k : Int)
    (pid : String) (s : VRFState) (res : List JudgeAssignment)
    (h1 : 1 ≤ k) (h2 : k ≤ (js.length : Int))
    (hok : (selectJudges env js k pid s).1 = .ok res) :
    res.length = k.toNat ∧
    res.map (·.judgeEmail)
      = (pickedIndices js.length (drawnValues env s.oracleCalls k.toNat) []).map
          (fun j => js.getD j "") ∧
    (pickedIndices js.length (drawnValues env s.oracleCalls k.toNat) []).Nodup ∧
    (∀ j ∈ pickedIndices js.length (drawnValues env s.oracleCalls k.toNat) [],
      j < js.length) ∧
    (js.Nodup →
      (res.map (·.judgeEmail)).Nodup ∧
      (res.map (·.judgeEmail)).toFinset.card = min k.toNat js.length) := by
  have hk51 : k ≤ 51 := by
    by_contra hgt
    push_neg at hgt
    rw [selectJudges_tooMany env js k pid s hgt h2] at hok
    simp at hok
  rw [selectJudges_ok_form env js k pid s h1 h2 hk51] at hok
  simp only [Except.ok.injEq] at hok
  subst hok
  have hA := assignList_fields js pid (env.reqIds s.ridCalls) env
    (drawnValues env s.oracleCalls k.toNat) [] (s.clockCalls + 1)
  obtain ⟨hA1, _, _, _, hA5⟩ := hA
  obtain ⟨hP1, hP2, hP3⟩ := pickedIndices_spec (n := js.length)
    (drawnValues env s.oracleCalls k.toNat) []
    (by simp [drawnValues_length]; omega)
  refine ⟨by rw [hA5, drawnValues_length], hA1, hP3, fun j hj => (hP2 j hj).1, ?_⟩
  intro hjs
  have hnd : ((pickedIndices js.length (drawnValues env s.oracleCalls k.toNat) []).map
      (fun j => js.getD j "")).Nodup :=
    nodup_map_getD hjs hP3 fun j hj => (hP2 j hj).1
  rw [hA1]
  refine ⟨hnd, ?_⟩
  rw [List.toFinset_card_of_nodup hnd, List.length_map, hP1, drawnValues_length]
  omega

/-- Witness for C1 at the spec's worked example: candidates `judges3`, `k = 2`,
draws 7 and 12. -/
theorem selectJudges_k_distinct_witness :
    ((1 : Int) ≤ 2 ∧ (2 : Int) ≤ (judges3.length : Int) ∧
      (selectJudges envA judges3 2 "p" VRFState.init).1 = .ok resA) ∧
    (resA.length = (2 : Int).toNat ∧
     resA.map (·.judgeEmail)
       = (pickedIndices judges3.length
            (drawnValues envA VRFState.init.oracleCalls (2 : Int).toNat) []).map
           (fun j => judges3.getD j "") ∧
     (pickedIndices judges3.length
        (drawnValues envA VRFState.init.oracleCalls (2 : Int).toNat) []).Nodup ∧
     (∀ j ∈ pickedIndices judges3.length
        (drawnValues envA VRFState.init.oracleCalls (2 : Int).toNat) [],
       j < judges3.length) ∧
     (judges3.Nodup →
       (resA.map (·.judgeEmail)).Nodup ∧
       (resA.map (·.judgeEmail)).toFinset.card = min (2 : Int).toNat judges3.length)) :=
  ⟨⟨by decide, by decide, by rfl⟩,
   selectJudges_k_distinct envA judges3 2 "p" VRFState.init resA
     (by decide) (by decide) (by rfl)⟩

/-- Claim C2: Argument validation precedes any oracle interaction: `k` exceeding
the candidate count fails with `insufficientCandidates`, and `k ≤ 0` fails
with `invalidCount`; in both cases no assignments are returned and the state
comes back untouched, so no oracle call was issued. -/
theorem selectJudges_validation (env : VRFEnv) (js : List String) (k : Int)
    (pid : String) (s : VRFState) :
    ((js.length : Int) < k →
      selectJudges env js k pid s = (.error .insufficientCandidates, s)) ∧
    (k ≤ 0 → selectJudges env js k pid s = (.error .invalidCount, s)) :=
  ⟨selectJudges_insufficient env js k pid s,
   selectJudges_invalidCount env js k pid s⟩

/-- Witness for C2: `k = 5` on three candidates, and `k = 0`. -/
theorem selectJudges_validation_witness :
    ((judges3.length : Int) < 5 ∧
      selectJudges envA judges3 5 "p" VRFState.init
        = (.error .insufficientCandidates, VRFState.init)) ∧
    ((0 : Int) ≤ 0 ∧
      selectJudges envA judges3 0 "p" VRFState.init
        = (.error .invalidCount, VRFState.init)) :=
  ⟨⟨by decide, (selectJudges_validation envA judges3 5 "p" VRFState.init).1 (by decide)⟩,
   ⟨by decide, (selectJudges_validation envA judges3 0 "p" VRFState.init).2 (by decide)⟩⟩

/-- Claim C3 counterexample: At the claim's own example (candidates `judges3`,
`k = 2`, draws 7 then 12) the assignments are `b@x` then `a@x` as stated, but
their `vrfRequestId` values are both the id of the single initial
`requestRandomness` call — equal, not distinct — even though the modelled id
generator returns a different id on every call. -/
theorem selectJudges_requestIds_equal_cex :
    emailsResult (selectJudges envA judges3 2 "p" VRFState.init) = .ok ["b@x", "a@x"] ∧
    ((selectJudges envA judges3 2 "p" VRFState.init).1).map
      (List.map (·.vrfRequestId)) = .ok ["rid0", "rid0"] ∧
    envA.reqIds 0 ≠ envA.reqIds 1 :=
  ⟨rfl, rfl, by decide⟩

/-- Claim C3 amended: Each assignment of a successful `selectJudges` call carries
the request id of the call's one `requestRandomness` invocation, so all
`vrfRequestId` values within a call are equal; the extra draws obtained via
`getMultipleRandomValues` have no request ids of their own. -/
theorem selectJudges_shared_requestId (env : VRFEnv) (js : List String)
    (k : Int) (pid : String) (s : VRFState) (res : List JudgeAssignment)
    (h1 : 1 ≤ k) (h2 : k ≤ (js.length : Int))
    (hok : (selectJudges env js k pid s).1 = .ok res) :
    res.map (·.vrfRequestId) = List.replicate k.toNat (env.reqIds s.ridCalls) := by
  have hk51 : k ≤ 51 := by
    by_contra hgt
    push_neg at hgt
    rw [selectJudges_tooMany env js k pid s hgt h2] at hok
    simp at hok
  rw [selectJudges_ok_form env js k pid s h1 h2 hk51] at hok
  simp only [Except.ok.injEq] at hok
  subst hok
  have hA := assignList_fields js pid (env.reqIds s.ridCalls) env
    (drawnValues env s.oracleCalls k.toNat) [] (s.clockCalls + 1)
  rw [hA.2.2.1, drawnValues_length]

/-- Witness for the amended C3 at the spec's worked example. -/
theorem selectJudges_shared_requestId_witness :
    ((1 : Int) ≤ 2 ∧ (2 : Int) ≤ (judges3.length : Int) ∧
      (selectJudges envA judges3 2 "p" VRFState.init).1 = .ok resA) ∧
    resA.map (·.vrfRequestId)
      = List.replicate (2 : Int).toNat (envA.reqIds VRFState.init.ridCalls) :=
  ⟨⟨by decide, by decide, by rfl⟩,
   selectJudges_shared_requestId envA judges3 2 "p" VRFState.init resA
     (by decide) (by decide) (by rfl)⟩

/-- Claim C4: One pick of the selection loop resolves to `(value + a) mod n` for the
least `attempts` offset `a` whose index is not already used (offsets below `a`
all collide), retries consume no oracle call (the loop leaves the oracle
counter untouched), and at the claim's collision example — two candidates,
`k = 2`, both draws 4 — the first pick takes index 0, the second resolves with
offset 1 to index 1, giving distinct assignments `a@x` then `b@x`. -/
theorem pick_offset_formula (js : List String) (pid rid : String)
    (env : VRFEnv) (values usedIndices : List Nat) (s : VRFState) (v : Nat)
    (hlen : usedIndices.length < js.length) :
    (∃ a, pickLoop js.length usedIndices v = (v + a) % js.length ∧
      (v + a) % js.length ∉ usedIndices ∧
      ∀ b < a, (v + b) % js.length ∈ usedIndices) ∧
    ((selectLoop js pid rid env values usedIndices s).2).oracleCalls
      = s.oracleCalls ∧
    emailsResult (selectJudges envB judges2 2 "p" VRFState.init)
      = .ok ["a@x", "b@x"] := by
  refine ⟨?_, selectLoop_oracleCalls js pid rid env values usedIndices s, rfl⟩
  have hn : 0 < js.length := lt_of_le_of_lt (Nat.zero_le _) hlen
  have ex := exists_unused_offset hn usedIndices v hlen
  obtain ⟨a, ha⟩ := exists_unused_offset hn usedIndices v hlen
  have hx : (v + a % js.length) % js.length ∉ usedIndices := by rwa [Nat.add_mod_mod]
  have hfl : Nat.find ex < js.length :=
    lt_of_le_of_lt (Nat.find_le hx) (Nat.mod_lt _ hn)
  refine ⟨Nat.find ex, ?_, Nat.find_spec ex, ?_⟩
  · rw [pickLoop, pickGo_eq_find js.length usedIndices v ex hfl (2 * js.length) 0
      (Nat.zero_le _) (by omega)]
  · intro b hb
    have h := Nat.find_min ex hb
    simpa using h

/-- Witness for C4 at the collision example: pool of two, index 0 already
used, drawn value 4. -/
theorem pick_offset_formula_witness :
    ([0].length < judges2.length) ∧
    ((∃ a, pickLoop judges2.length [0] 4 = (4 + a) % judges2.length ∧
        (4 + a) % judges2.length ∉ [0] ∧
        ∀ b < a, (4 + b) % judges2.length ∈ [0]) ∧
      ((selectLoop judges2 "p" "rid0" envB [4] [0] VRFState.init).2).oracleCalls
        = VRFState.init.oracleCalls ∧
      emailsResult (selectJudges envB judges2 2 "p" VRFState.init)
        = .ok ["a@x", "b@x"]) :=
  ⟨by decide,
   pick_offset_formula judges2 "p" "rid0" envB [4] [0] VRFState.init 4 (by decide)⟩

/-- Claim C5: `getMultipleRandomValues(count)` fails with `invalidCount` for
`count ≤ 0` and with `tooManyRequested` for `count > 50` without touching the
oracle; for `1 ≤ count ≤ 50` it issues exactly `count` oracle calls and
returns exactly `count` uint64 values, the `i`-th decoded from the `i`-th
call. -/
theorem getMultipleRandomValues_bounds (env : VRFEnv) (count : Int)
    (s : VRFState) :
    (count ≤ 0 →
      getMultipleRandomValues env count s = (.error .invalidCount, s)) ∧
    (50 < count →
      getMultipleRandomValues env count s = (.error .tooManyRequested, s)) ∧
    (1 ≤ count → count ≤ 50 →
      getMultipleRandomValues env count s =
        (.ok ((List.range count.toNat).map
            fun i => env.draws (s.oracleCalls + i) % 2 ^ 64),
         { s with oracleCalls := s.oracleCalls + count.toNat })) := by
  refine ⟨fun h => by simp [getMultipleRandomValues, if_pos h], fun h => ?_, ?_⟩
  · have hnot : ¬ count ≤ 0 := by omega
    simp [getMultipleRandomValues, if_neg hnot, if_pos h]
  · intro ha hb
    have h1 : ¬ count ≤ 0 := by omega
    have h2 : ¬ 50 < count := by omega
    simp [getMultipleRandomValues, if_neg h1, if_neg h2, drawMany_eq]

/-- Witness for C5 at `count = 0`, `count = 51` and `count = 2`. -/
theorem getMultipleRandomValues_bounds_witness :
    ((0 : Int) ≤ 0 ∧
      getMultipleRandomValues envA 0 VRFState.init
        = (.error .invalidCount, VRFState.init)) ∧
    ((50 : Int) < 51 ∧
      getMultipleRandomValues envA 51 VRFState.init
        = (.error .tooManyRequested, VRFState.init)) ∧
    ((1 : Int) ≤ 2 ∧ (2 : Int) ≤ 50 ∧
      getMultipleRandomValues envA 2 VRFState.init =
        (.ok ((List.range (2 : Int).toNat).map
            fun i => envA.draws (VRFState.init.oracleCalls + i) % 2 ^ 64),
         { VRFState.init with
             oracleCalls := VRFState.init.oracleCalls + (2 : Int).toNat })) :=
  ⟨⟨by decide, (getMultipleRandomValues_bounds envA 0 VRFState.init).1 (by decide)⟩,
   ⟨by decide, (getMultipleRandomValues_bounds envA 51 VRFState.init).2.1 (by decide)⟩,
   ⟨by decide, by decide,
    (getMultipleRandomValues_bounds envA 2 VRFState.init).2.2 (by decide) (by decide)⟩⟩

/-- Claim C6: `getRandomInRange(min, max)` fails with `invalidRange` when
`max < min`; otherwise it draws once and returns
`draw % (max - min + 1) + min`, which lies in `[min, max]` for every uint64
draw, and equals `min` in the degenerate `min = max` case. -/
theorem getRandomInRange_spec (env : VRFEnv) (lo hi : Int) (s : VRFState) :
    (hi < lo → getRandomInRange env lo hi s = (.error .invalidRange, s)) ∧
    (lo ≤ hi →
      getRandomInRange env lo hi s =
        (.ok (((env.draws s.oracleCalls % 2 ^ 64 : Nat) : Int) % (hi - lo + 1) + lo),
         { s with oracleCalls := s.oracleCalls + 1 }) ∧
      lo ≤ ((env.draws s.oracleCalls % 2 ^ 64 : Nat) : Int) % (hi - lo + 1) + lo ∧
      ((env.draws s.oracleCalls % 2 ^ 64 : Nat) : Int) % (hi - lo + 1) + lo ≤ hi ∧
      (lo = hi →
        ((env.draws s.oracleCalls % 2 ^ 64 : Nat) : Int) % (hi - lo + 1) + lo = lo)) := by
  refine ⟨fun h => by simp [getRandomInRange, if_pos h], fun h => ?_⟩
  have hnot : ¬ hi < lo := by omega
  have hrange : 0 < hi - lo + 1 := by omega
  have hnn : 0 ≤ ((env.draws s.oracleCalls % 2 ^ 64 : Nat) : Int) % (hi - lo + 1) :=
    Int.emod_nonneg _ (by omega)
  have hub : ((env.draws s.oracleCalls % 2 ^ 64 : Nat) : Int) % (hi - lo + 1)
      < hi - lo + 1 := Int.emod_lt_of_pos _ hrange
  refine ⟨by simp [getRandomInRange, if_neg hnot, oracleCall], by omega, by omega, ?_⟩
  intro heq
  subst heq
  simp

/-- Witness for C6: invalid range `(5, 2)`, proper range `(3, 10)` with
draw 7, and degenerate range `(5, 5)`. -/
theorem getRandomInRange_spec_witness :
    ((2 : Int) < 5 ∧
      getRandomInRange envA 5 2 VRFState.init
        = (.error .invalidRange, VRFState.init)) ∧
    ((3 : Int) ≤ 10 ∧
      getRandomInRange envA 3 10 VRFState.init
        = (.ok (((envA.draws VRFState.init.oracleCalls % 2 ^ 64 : Nat) : Int)
              % (10 - 3 + 1) + 3),
           { VRFState.init with oracleCalls := VRFState.init.oracleCalls + 1 })) ∧
    ((5 : Int) ≤ 5 ∧
      ((envA.draws VRFState.init.oracleCalls % 2 ^ 64 : Nat) : Int)
          % (5 - 5 + 1) + 5 = 5) :=
  ⟨⟨by decide, (getRandomInRange_spec envA 5 2 VRFState.init).1 (by decide)⟩,
   ⟨by decide, ((getRandomInRange_spec envA 3 10 VRFState.init).2 (by decide)).1⟩,
   ⟨by decide, ((getRandomInRange_spec envA 5 5 VRFState.init).2 (by decide)).2.2.2 rfl⟩⟩

/-- Claim C7: `selectJudges` is deterministic with respect to the oracle stream:
two environments that agree on the oracle draws (but may differ in request
ids, block numbers and clocks) produce the same error outcome, and on success
the same judge identifiers in the same order. -/
theorem selectJudges_deterministic (env₁ env₂ : VRFEnv) (js : List String)
    (k : Int) (pid : String) (s : VRFState) (h : env₁.draws = env₂.draws) :
    emailsResult (selectJudges env₁ js k pid s)
      = emailsResult (selectJudges env₂ js k pid s) := by
  by_cases hins : (js.length : Int) < k
  · rw [selectJudges_insufficient env₁ js k pid s hins,
      selectJudges_insufficient env₂ js k pid s hins]
  · by_cases hinv : k ≤ 0
    · rw [selectJudges_invalidCount env₁ js k pid s hinv,
        selectJudges_invalidCount env₂ js k pid s hinv]
    · by_cases htm : 51 < k
      · rw [selectJudges_tooMany env₁ js k pid s htm (not_lt.mp hins),
          selectJudges_tooMany env₂ js k pid s htm (not_lt.mp hins)]
      · have hvals : drawnValues env₁ s.oracleCalls k.toNat
            = drawnValues env₂ s.oracleCalls k.toNat := by
          simp [drawnValues, h]
        rw [selectJudges_ok_form env₁ js k pid s (by omega) (not_lt.mp hins) (by omega),
          selectJudges_ok_form env₂ js k pid s (by omega) (not_lt.mp hins) (by omega)]
        simp only [emailsResult, Except.map]
        rw [(assignList_fields js pid (env₁.reqIds s.ridCalls) env₁
              (drawnValues env₁ s.oracleCalls k.toNat) [] (s.clockCalls + 1)).1,
          (assignList_fields js pid (env₂.reqIds s.ridCalls) env₂
              (drawnValues env₂ s.oracleCalls k.toNat) [] (s.clockCalls + 1)).1,
          hvals]

/-- Witness for C7: `envA` and `envA'` share the draw stream but differ in
request ids, block numbers and clocks. -/
theorem selectJudges_deterministic_witness :
    envA.draws = envA'.draws ∧
    emailsResult (selectJudges envA judges3 2 "p" VRFState.init)
      = emailsResult (selectJudges envA' judges3 2 "p" VRFState.init) :=
  ⟨rfl, selectJudges_deterministic envA envA' judges3 2 "p" VRFState.init rfl⟩

/-- Claim C8: In every assignment of a successful call, `randomnessUsed` is the hex
form of the pick's original drawn value — never of the collision-offset
value: at the collision example (two candidates, both draws 4) the second
pick needed offset 1 yet records `toBeHex 4 = "0x04"`, not
`toBeHex 5 = "0x05"`. -/
theorem randomnessUsed_original (env : VRFEnv) (js : List String) (k : Int)
    (pid : String) (s : VRFState) (res : List JudgeAssignment)
    (h1 : 1 ≤ k) (h2 : k ≤ (js.length : Int))
    (hok : (selectJudges env js k pid s).1 = .ok res) :
    res.map (·.randomnessUsed)
      = (drawnValues env s.oracleCalls k.toNat).map toBeHex ∧
    ((selectJudges envB judges2 2 "q" VRFState.init).1).map
      (List.map (·.randomnessUsed)) = .ok ["0x04", "0x04"] ∧
    toBeHex (4 + 1) = "0x05" ∧ toBeHex 4 ≠ toBeHex (4 + 1) := by
  have hk51 : k ≤ 51 := by
    by_contra hgt
    push_neg at hgt
    rw [selectJudges_tooMany env js k pid s hgt h2] at hok
    simp at hok
  rw [selectJudges_ok_form env js k pid s h1 h2 hk51] at hok
  simp only [Except.ok.injEq] at hok
  subst hok
  have hA := assignList_fields js pid (env.reqIds s.ridCalls) env
    (drawnValues env s.oracleCalls k.toNat) [] (s.clockCalls + 1)
  exact ⟨hA.2.1, rfl, rfl, by decide⟩

/-- Witness for C8 at the collision example. -/
theorem randomnessUsed_original_witness :
    ((1 : Int) ≤ 2 ∧ (2 : Int) ≤ (judges2.length : Int) ∧
      (selectJudges envB judges2 2 "q" VRFState.init).1 = .ok resB) ∧
    (resB.map (·.randomnessUsed)
       = (drawnValues envB VRFState.init.oracleCalls (2 : Int).toNat).map toBeHex ∧
     ((selectJudges envB judges2 2 "q" VRFState.init).1).map
       (List.map (·.randomnessUsed)) = .ok ["0x04", "0x04"] ∧
     toBeHex (4 + 1) = "0x05" ∧ toBeHex 4 ≠ toBeHex (4 + 1)) :=
  ⟨⟨by decide, by decide, by rfl⟩,
   randomnessUsed_original envB judges2 2 "q" VRFState.init resB
     (by decide) (by decide) (by rfl)⟩

/-- Claim C9: For `1 ≤ k ≤ n` the post-loop `duplicateSelectionFailure` throw of
`selectJudges` is dead code: the `n` consecutive offsets of a drawn value
cover all residues mod `n` and fewer than `n` indices are used before any
pick, so every pick resolves strictly below the `2 n` attempt cap. -/
theorem duplicate_failure_unreachable (env : VRFEnv) (js : List String)
    (k : Int) (pid : String) (s : VRFState)
    (h1 : 1 ≤ k) (h2 : k ≤ (js.length : Int)) :
    (selectJudges env js k pid s).1 ≠ .error .duplicateSelectionFailure := by
  by_cases htm : 51 < k
  · rw [selectJudges_tooMany env js k pid s htm h2]
    simp
  · rw [selectJudges_ok_form env js k pid s h1 h2 (by omega)]
    simp

/-- Witness for C9 at the collision example, where the loop does retry. -/
theorem duplicate_failure_unreachable_witness :
    ((1 : Int) ≤ 2 ∧ (2 : Int) ≤ (judges2.length : Int)) ∧
    (selectJudges envB judges2 2 "p" VRFState.init).1
      ≠ .error .duplicateSelectionFailure :=
  ⟨⟨by decide, by decide⟩,
   duplicate_failure_unreachable envB judges2 2 "p" VRFState.init
     (by decide) (by decide)⟩

/-- Claim C10: For `51 < k ≤ n`, `selectJudges` fails with `tooManyRequested`
(after the one `requestRandomness` oracle call) because it delegates to
`getMultipleRandomValues (k - 1)` whose ceiling is 50 — an error outside the
documented `insufficientCandidates` / `invalidCount` contract — while `k = 51`
still succeeds, so 51 is the effective maximum per call. -/
theorem selectJudges_cap_51 (env : VRFEnv) (js : List String) (k : Int)
    (pid : String) (s : VRFState) (h1 : 51 < k) (h2 : k ≤ (js.length : Int)) :
    selectJudges env js k pid s =
      (.error .tooManyRequested,
       { oracleCalls := s.oracleCalls + 1
         ridCalls := s.ridCalls + 1
         clockCalls := s.clockCalls + 1 }) ∧
    (selectJudges env js 51 pid s).1 =
      .ok (assignList js pid (env.reqIds s.ridCalls) env
        (drawnValues env s.oracleCalls (51 : Int).toNat) [] (s.clockCalls + 1)) := by
  refine ⟨selectJudges_tooMany env js k pid s h1 h2, ?_⟩
  rw [selectJudges_ok_form env js 51 pid s (by omega) (by omega) (by omega)]

/-- Witness for C10: `k = 52` on a pool of 60. -/
theorem selectJudges_cap_51_witness :
    ((51 : Int) < 52 ∧ (52 : Int) ≤ (judges60.length : Int)) ∧
    (selectJudges envA judges60 52 "p" VRFState.init =
      (.error .tooManyRequested,
       { oracleCalls := VRFState.init.oracleCalls + 1
         ridCalls := VRFState.init.ridCalls + 1
         clockCalls := VRFState.init.clockCalls + 1 }) ∧
     (selectJudges envA judges60 51 "p" VRFState.init).1 =
       .ok (assignList judges60 "p" (envA.reqIds VRFState.init.ridCalls) envA
         (drawnValues envA VRFState.init.oracleCalls (51 : Int).toNat) []
         (VRFState.init.clockCalls + 1))) :=
  ⟨⟨by decide, by decide⟩,
   selectJudges_cap_51 envA judges60 52 "p" VRFState.init (by decide) (by decide)⟩

end FlowVRF
